import Mathlib

/-!
Shallow embedding of the movie CRUD service (`src/routes/movies.py`).

The six route handlers are modelled as pure state-passing functions over a
state `St` holding the Record Store (movies and users tables) and the Blob
Store (the flat upload directory as an association list of filename ↦ bytes).

Nondeterministic ingredients of the source are made explicit parameters:
  * `hex` — the value of `uuid4().hex` used to build the stored filename;
  * `writeFails` — whether the `open`/`write` of the poster file raises.

Errors distinguish `HTTPException(status_code, detail)` raised by the handler
(`MErr.http`) from exceptions that propagate uncaught out of the handler and
surface as a server error (`MErr.uncaught`), such as `json.JSONDecodeError`
from `json.loads` or the `TypeError` from passing `user_id` twice to the
`Movie` constructor.
-/

namespace MovieService

/-- A dynamic (Python-level) value, as far as this surface manipulates them:
strings, integers, or `None`. Movie attributes are untyped at this layer. -/
inductive Val where
  | vStr (s : String)
  | vInt (n : Int)
  | vNone
deriving DecidableEq, Repr

/-- Modelled from the spec: `models/movie.py` is not under `src/`.  Per the
data model section, a Movie has a store-assigned integer identifier, a title
(descriptive, untyped), a poster filename set by the server, and an
owning-user identifier set at creation from the authenticated caller.
Fields are `Val` because Python `setattr` can store any value. -/
structure Movie where
  id : Val
  title : Val
  poster_path : Val
  user_id : Val
deriving DecidableEq, Repr

/-- Modelled from the spec: `models/users.py` is not under `src/`.  A User
has an integer identifier and an administrative flag. -/
structure User where
  id : Int
  is_admin : Bool
deriving DecidableEq, Repr

/-- The `data` form field: either a string that is not valid JSON, or a JSON
object parsed to an ordered list of key/value pairs. -/
inductive Jsn where
  | malformed
  | obj (fields : List (String × Val))
deriving DecidableEq, Repr

/-- An uploaded file: `UploadFile` with its client-supplied filename and its
byte content. -/
structure Upload where
  filename : String
  content : List Nat
deriving DecidableEq, Repr

/-- Outcome of a handler: an `HTTPException(code, detail)` raised by the
handler itself, or an exception propagating uncaught (a server error). -/
inductive MErr where
  | http (code : Nat) (detail : String)
  | uncaught (exc : String)
deriving DecidableEq, Repr

/-- Equality of handler outcomes is decidable (used to evaluate the model
at concrete inputs). -/
instance {e a : Type} [DecidableEq e] [DecidableEq a] : DecidableEq (Except e a) := fun x y =>
  match x, y with
  | Except.ok v, Except.ok w =>
      if h : v = w then isTrue (by rw [h]) else isFalse (by intro hc; cases hc; exact h rfl)
  | Except.error v, Except.error w =>
      if h : v = w then isTrue (by rw [h]) else isFalse (by intro hc; cases hc; exact h rfl)
  | Except.ok _, Except.error _ => isFalse (by intro hc; cases hc)
  | Except.error _, Except.ok _ => isFalse (by intro hc; cases hc)

/-- The movies table plus the autoincrement counter of the primary key. -/
structure DB where
  movies : List Movie
  nextId : Int
deriving DecidableEq, Repr

/-- Full persistent state: Record Store (movies, users) and Blob Store
(`FILE_DIR` contents, filename ↦ bytes, flat). -/
structure St where
  db : DB
  users : List User
  fs : List (String × List Nat)
deriving DecidableEq, Repr

/-- Lookup of field `k` in a parsed mapping: `json.loads` on a JSON object
keeps the last occurrence of a duplicated key. -/
def lookupLast : List (String × Val) → String → Option Val
  | [], _ => none
  | (k0, v0) :: rest, k =>
      match lookupLast rest k with
      | some v => some v
      | none => if k0 == k then some v0 else none

/-- Python `str.split` with a one-character separator, over the character
list (`"a.jpg".split('.') == ['a', 'jpg']`, `"".split('.') == ['']`). -/
def splitChar (c : Char) : List Char → List (List Char)
  | [] => [[]]
  | ch :: rest =>
      let r := splitChar c rest
      if ch == c then [] :: r
      else
        match r with
        | [] => [[ch]]
        | h :: t => (ch :: h) :: t

/-- Extension extraction of the source, `s.split('.')[-1]`. -/
def extOf (s : String) : String :=
  String.mk (((splitChar '.' s.data).getLast?).getD s.data)

/-- Last slash-separated component, as `pathlib.Path(s).name`. -/
def pathName (s : String) : String :=
  String.mk (((splitChar '/' s.data).getLast?).getD s.data)

/-- Modelled from the spec: the `Movie` constructor (`models/movie.py` is not
under `src/`).  A SQLModel table model assigns the declared fields from the
keyword arguments without validation; fields not supplied default to `None`
(the identifier is store-assigned at commit). -/
def movieMk (d : List (String × Val)) (uid : Int) : Movie :=
  { id := (lookupLast d "id").getD Val.vNone
    title := (lookupLast d "title").getD Val.vNone
    poster_path := (lookupLast d "poster_path").getD Val.vNone
    user_id := Val.vInt uid }

/-- Test `hasattr(movie, k)`: the declared attributes of the Movie model. -/
def isField (k : String) : Bool :=
  k == "id" || k == "title" || k == "poster_path" || k == "user_id"

/-- Assignment `setattr(movie, k, v)` for a declared attribute, identity otherwise. -/
def setattrM (m : Movie) (k : String) (v : Val) : Movie :=
  if k == "id" then { m with id := v }
  else if k == "title" then { m with title := v }
  else if k == "poster_path" then { m with poster_path := v }
  else if k == "user_id" then { m with user_id := v }
  else m

/-- The update loop `for key, value in parsed_data.items(): if hasattr(movie,
key): setattr(movie, key, value)` (the `hasattr` guard is folded into
`setattrM`, which leaves the record unchanged on an unknown key). -/
def setattrLoop (m : Movie) : List (String × Val) → Movie
  | [] => m
  | (k, v) :: rest => setattrLoop (setattrM m k v) rest

/-- Primary-key lookup `session.get(Movie, movie_id)`. -/
def dbGet (db : DB) (mid : Int) : Option Movie :=
  db.movies.find? (fun m => m.id == Val.vInt mid)

/-- Insertion `session.add(movie); session.commit(); session.refresh(movie)` for a new
record: the store assigns the next identifier when none was supplied. -/
def dbInsert (db : DB) (m : Movie) : Movie × DB :=
  match m.id with
  | Val.vNone =>
      let m' := { m with id := Val.vInt db.nextId }
      (m', { movies := db.movies ++ [m'], nextId := db.nextId + 1 })
  | _ => (m, { movies := db.movies ++ [m], nextId := db.nextId })

/-- Commit of an update to the row fetched under primary key `mid`: the first
matching row is replaced by the mutated record. -/
def replaceFirst : List Movie → Int → Movie → List Movie
  | [], _, _ => []
  | m :: rest, mid, m' =>
      if m.id == Val.vInt mid then m' :: rest
      else m :: replaceFirst rest mid m'

/-- Deletion `session.delete(movie); session.commit()`: the row fetched under primary
key `mid` is removed. -/
def removeFirst : List Movie → Int → List Movie
  | [], _ => []
  | m :: rest, mid =>
      if m.id == Val.vInt mid then rest
      else m :: removeFirst rest mid

/-- User lookup `session.exec(select(User).where(User.id == user_id)).first()`. -/
def userGet (st : St) (uid : Int) : Option User :=
  st.users.find? (fun u => u.id == uid)

/-- Handler `get_all_movies`: the full movies table, store order. -/
def get_all_movies (st : St) : List Movie × St :=
  (st.db.movies, st)

/-- Handler `get_movie`: primary-key fetch, 404 when absent. -/
def get_movie (mid : Int) (st : St) : Except MErr Movie × St :=
  match dbGet st.db mid with
  | none => (Except.error (MErr.http 404 "해당 영화를 찾을 수 없습니다."), st)
  | some m => (Except.ok m, st)

/-- Handler `create_movie`: parse the blob, build the record with `user_id` from the
authenticated caller, write the poster under `uuid4().hex ++ "." ++ ext`,
then insert.  `json.loads` failure and the duplicate `user_id` keyword
propagate uncaught; a failed file write aborts before any insert. -/
def create_movie (hex : String) (writeFails : Bool) (data : Jsn)
    (poster : Upload) (uid : Int) (st : St) : Except MErr Movie × St :=
  match data with
  | Jsn.malformed => (Except.error (MErr.uncaught "JSONDecodeError"), st)
  | Jsn.obj d =>
      if d.any (fun kv => kv.1 == "user_id") then
        (Except.error (MErr.uncaught "TypeError"), st)
      else
        let movie := movieMk d uid
        let unique := hex ++ "." ++ extOf poster.filename
        if writeFails then
          (Except.error (MErr.uncaught "OSError"), st)
        else
          let fs' := st.fs ++ [(unique, poster.content)]
          let movie := { movie with poster_path := Val.vStr unique }
          let md := dbInsert st.db movie
          (Except.ok md.1, { st with db := md.2, fs := fs' })

/-- Handler `update_movie`: parse the blob first, then fetch the record (404), the
caller (401), check admin-or-owner (403), apply the permissive attribute
merge, optionally replace the poster, and commit. -/
def update_movie (hex : String) (writeFails : Bool) (mid : Int) (data : Jsn)
    (poster : Option Upload) (uid : Int) (st : St) : Except MErr Movie × St :=
  match data with
  | Jsn.malformed => (Except.error (MErr.uncaught "JSONDecodeError"), st)
  | Jsn.obj d =>
      match dbGet st.db mid with
      | none => (Except.error (MErr.http 404 "해당 영화를 찾을 수 없습니다."), st)
      | some movie =>
          match userGet st uid with
          | none => (Except.error (MErr.http 401 "유저 정보를 찾을 수 없습니다."), st)
          | some user =>
              if !user.is_admin && !(movie.user_id == Val.vInt uid) then
                (Except.error (MErr.http 403 "수정 권한이 없습니다."), st)
              else
                let movie := setattrLoop movie d
                match poster with
                | some p =>
                    if writeFails then
                      (Except.error (MErr.uncaught "OSError"), st)
                    else
                      let unique := hex ++ "." ++ extOf p.filename
                      let fs' := st.fs ++ [(unique, p.content)]
                      let movie := { movie with poster_path := Val.vStr unique }
                      (Except.ok movie,
                        { st with db := { st.db with movies := replaceFirst st.db.movies mid movie },
                                  fs := fs' })
                | none =>
                    (Except.ok movie,
                      { st with db := { st.db with movies := replaceFirst st.db.movies mid movie } })

/-- Handler `delete_movie`: fetch (404), resolve caller (401), admin-or-owner (403),
remove the row; the poster file is not removed. -/
def delete_movie (mid : Int) (uid : Int) (st : St) : Except MErr String × St :=
  match dbGet st.db mid with
  | none => (Except.error (MErr.http 404 "해당 영화를 찾을 수 없습니다."), st)
  | some movie =>
      match userGet st uid with
      | none => (Except.error (MErr.http 401 "유저 정보를 찾을 수 없습니다."), st)
      | some user =>
          if !user.is_admin && !(movie.user_id == Val.vInt uid) then
            (Except.error (MErr.http 403 "삭제 권한이 없습니다."), st)
          else
            (Except.ok "영화가 삭제되었습니다.",
              { st with db := { st.db with movies := removeFirst st.db.movies mid } })

/-- A successful download: `FileResponse(file_path, media_type=..., filename=
file_path.name)` — the served path, the content type, the suggested download
name, and the streamed bytes. -/
structure DlResp where
  path : String
  media_type : String
  filename : String
  bytes : List Nat
deriving DecidableEq, Repr

/-- Handler `download_poster`: 404 when the record is absent, 404 when
`FILE_DIR / movie.poster_path` does not exist, else the file response.  A
non-string `poster_path` would make `FILE_DIR / movie.poster_path` raise
`TypeError` (uncaught). -/
def download_poster (mid : Int) (st : St) : Except MErr DlResp × St :=
  match dbGet st.db mid with
  | none => (Except.error (MErr.http 404 "해당 영화를 찾을 수 없습니다."), st)
  | some movie =>
      match movie.poster_path with
      | Val.vStr p =>
          match (st.fs.find? (fun f => f.1 == p)) with
          | none => (Except.error (MErr.http 404 "포스터 파일을 찾을 수 없습니다."), st)
          | some f =>
              (Except.ok { path := p, media_type := "application/octet-stream",
                           filename := pathName p, bytes := f.2 }, st)
      | _ => (Except.error (MErr.uncaught "TypeError"), st)

/-- A request to any of the six endpoints, with its nondeterministic
ingredients (`hex`, `writeFails`) made explicit. -/
inductive Op where
  | create (hex : String) (writeFails : Bool) (data : Jsn) (poster : Upload) (uid : Int)
  | update (hex : String) (writeFails : Bool) (mid : Int) (data : Jsn)
      (poster : Option Upload) (uid : Int)
  | delete (mid : Int) (uid : Int)
  | getOne (mid : Int)
  | listAll
  | download (mid : Int)
deriving DecidableEq, Repr

/-- The state after handling one request (the response is discarded). -/
def step (o : Op) (st : St) : St :=
  match o with
  | Op.create hex wf data poster uid => (create_movie hex wf data poster uid st).2
  | Op.update hex wf mid data poster uid => (update_movie hex wf mid data poster uid st).2
  | Op.delete mid uid => (delete_movie mid uid st).2
  | Op.getOne mid => (get_movie mid st).2
  | Op.listAll => (get_all_movies st).2
  | Op.download mid => (download_poster mid st).2

/-- The state after a sequence of requests. -/
def run : List Op → St → St
  | [], st => st
  | o :: rest, st => run rest (step o st)

/-- An update request whose blob, when it parses, has no `user_id` key (all
other requests qualify trivially). -/
def updNoUserId : Op → Bool
  | Op.update _ _ _ (Jsn.obj d) _ _ => d.all (fun kv => !(kv.1 == "user_id"))
  | _ => true

/- Concrete fixtures for witnesses and counterexamples. -/

/-- A non-admin user with identifier 1. -/
def user1 : User := { id := 1, is_admin := false }

/-- A non-admin user with identifier 2. -/
def user2 : User := { id := 2, is_admin := false }

/-- Initial state: no movies, users 1 and 2 registered, empty Blob Store. -/
def st0 : St := { db := { movies := [], nextId := 1 }, users := [user1, user2], fs := [] }

/-- A concrete poster upload named `a.jpg`. -/
def posterA : Upload := { filename := "a.jpg", content := [7, 7, 7] }

/-- A concrete poster upload named `poster.png`. -/
def posterPng : Upload := { filename := "poster.png", content := [9, 9] }

/-- Concrete create blob `{"title": "X"}`. -/
def dX : Jsn := Jsn.obj [("title", Val.vStr "X")]

/-- The record produced by creating a movie from `dX` with caller 1 on `st0`
(poster hex `aaaa`). -/
def m1 : Movie :=
  { id := Val.vInt 1, title := Val.vStr "X",
    poster_path := Val.vStr "aaaa.jpg", user_id := Val.vInt 1 }

/-- State after that creation. -/
def st1 : St := step (Op.create "aaaa" false dX posterA 1) st0

/-- Discriminator: is the outcome `HTTPException(400, ...)` (BadRequest)? -/
def errIsHttp400 : Except MErr Movie → Bool
  | Except.error (MErr.http 400 _) => true
  | _ => false

/-- Attribute read-back (Python `getattr` restricted to the declared Movie
attributes), used to state the merge semantics of update. -/
def getattrM (m : Movie) (k : String) : Option Val :=
  if k == "id" then some m.id
  else if k == "title" then some m.title
  else if k == "poster_path" then some m.poster_path
  else if k == "user_id" then some m.user_id
  else none

/-- The record `m1` after an update of the title to `Y`. -/
def m1Y : Movie := { m1 with title := Val.vStr "Y" }

/-- A concrete authorized update of the title only (no `user_id` key). -/
def opUpdY : Op := Op.update "bbbb" false 1 (Jsn.obj [("title", Val.vStr "Y")]) none 1

/- Supporting lemmas. -/

theorem dbInsert_fst_user_id (db : DB) (m : Movie) :
    (dbInsert db m).1.user_id = m.user_id := by
  unfold dbInsert; split <;> rfl

theorem dbInsert_snd_movies (db : DB) (m : Movie) :
    (dbInsert db m).2.movies = db.movies ++ [(dbInsert db m).1] := by
  unfold dbInsert; split <;> rfl

theorem setattrM_user_id (m : Movie) (k : String) (v : Val)
    (h : (k == "user_id") = false) : (setattrM m k v).user_id = m.user_id := by
  unfold setattrM
  split_ifs <;> simp_all

theorem setattrLoop_user_id (d : List (String × Val)) (m : Movie)
    (h : d.all (fun kv => !(kv.1 == "user_id")) = true) :
    (setattrLoop m d).user_id = m.user_id := by
  induction d generalizing m with
  | nil => rfl
  | cons kv rest ih =>
      obtain ⟨k, v⟩ := kv
      simp only [List.all_cons, Bool.and_eq_true, Bool.not_eq_true'] at h
      show (setattrLoop (setattrM m k v) rest).user_id = m.user_id
      rw [ih _ (by simpa using h.2), setattrM_user_id _ _ _ h.1]

theorem mem_replaceFirst {x m' : Movie} {mid : Int} : ∀ {l : List Movie},
    x ∈ replaceFirst l mid m' → x ∈ l ∨ x = m' := by
  intro l
  induction l with
  | nil => intro h; simp [replaceFirst] at h
  | cons a rest ih =>
      intro h
      rw [replaceFirst] at h
      split at h
      · rcases List.mem_cons.mp h with h | h
        · right; exact h
        · left; exact List.mem_cons_of_mem _ h
      · rcases List.mem_cons.mp h with h | h
        · left; exact h ▸ List.mem_cons_self _ _
        · rcases ih h with h | h
          · left; exact List.mem_cons_of_mem _ h
          · right; exact h

theorem self_mem_replaceFirst {m' : Movie} {mid : Int} : ∀ {l : List Movie},
    (∃ x ∈ l, (x.id == Val.vInt mid) = true) → m' ∈ replaceFirst l mid m' := by
  intro l
  induction l with
  | nil => rintro ⟨x, hx, _⟩; simp at hx
  | cons a rest ih =>
      rintro ⟨x, hx, hid⟩
      rw [replaceFirst]
      split
      · exact List.mem_cons_self _ _
      · rcases List.mem_cons.mp hx with h | h
        · subst h; simp_all
        · exact List.mem_cons_of_mem _ (ih ⟨x, h, hid⟩)

theorem mem_removeFirst {x : Movie} {mid : Int} : ∀ {l : List Movie},
    x ∈ removeFirst l mid → x ∈ l := by
  intro l
  induction l with
  | nil => intro h; simp [removeFirst] at h
  | cons a rest ih =>
      intro h
      rw [removeFirst] at h
      split at h
      · exact List.mem_cons_of_mem _ h
      · rcases List.mem_cons.mp h with h | h
        · exact h ▸ List.mem_cons_self _ _
        · exact List.mem_cons_of_mem _ (ih h)

theorem get_movie_state (mid : Int) (st : St) : (get_movie mid st).2 = st := by
  unfold get_movie; split <;> rfl

theorem download_poster_state (mid : Int) (st : St) :
    (download_poster mid st).2 = st := by
  unfold download_poster
  split
  · rfl
  · split
    · split <;> rfl
    · rfl

theorem create_movies_characterization (hex : String) (wfl : Bool) (data : Jsn)
    (poster : Upload) (uid : Int) (st : St) :
    (create_movie hex wfl data poster uid st).2.db.movies = st.db.movies ∨
    ∃ mNew, (create_movie hex wfl data poster uid st).2.db.movies = st.db.movies ++ [mNew] ∧
      mNew.user_id = Val.vInt uid := by
  cases data with
  | malformed => left; rfl
  | obj d =>
      simp only [create_movie]
      split
      · left; rfl
      · split
        · left; rfl
        · right
          refine ⟨(dbInsert st.db { movieMk d uid with
            poster_path := Val.vStr (hex ++ "." ++ extOf poster.filename) }).1, ?_, ?_⟩
          · exact dbInsert_snd_movies _ _
          · rw [dbInsert_fst_user_id]
            rfl

theorem update_movies_user_ids (hex : String) (wfl : Bool) (mid : Int) (data : Jsn)
    (poster : Option Upload) (uid : Int) (st : St)
    (ho : ∀ d, data = Jsn.obj d → d.all (fun kv => !(kv.1 == "user_id")) = true) :
    ∀ m' ∈ (update_movie hex wfl mid data poster uid st).2.db.movies,
      m'.user_id ∈ st.db.movies.map (fun m => m.user_id) := by
  intro m' hm'
  cases data with
  | malformed => exact List.mem_map_of_mem _ hm'
  | obj d =>
      have hd := ho d rfl
      simp only [update_movie] at hm'
      rcases hfind : dbGet st.db mid with _ | movie
      · simp only [hfind] at hm'
        exact List.mem_map_of_mem _ hm'
      · simp only [hfind] at hm'
        rcases huser : userGet st uid with _ | user
        · simp only [huser] at hm'
          exact List.mem_map_of_mem _ hm'
        · simp only [huser] at hm'
          by_cases hperm : (!user.is_admin && !(movie.user_id == Val.vInt uid)) = true
          · rw [if_pos hperm] at hm'
            exact List.mem_map_of_mem _ hm'
          · rw [if_neg hperm] at hm'
            have hmovie : (setattrLoop movie d).user_id = movie.user_id :=
              setattrLoop_user_id d movie hd
            cases poster with
            | none =>
                dsimp only at hm'
                rcases mem_replaceFirst hm' with h | h
                · exact List.mem_map_of_mem _ h
                · subst h
                  exact List.mem_map.mpr
                    ⟨movie, List.mem_of_find?_eq_some hfind, hmovie.symm⟩
            | some p =>
                dsimp only at hm'
                by_cases hwf : wfl = true
                · rw [if_pos hwf] at hm'
                  exact List.mem_map_of_mem _ hm'
                · rw [if_neg hwf] at hm'
                  rcases mem_replaceFirst hm' with h | h
                  · exact List.mem_map_of_mem _ h
                  · subst h
                    exact List.mem_map.mpr
                      ⟨movie, List.mem_of_find?_eq_some hfind, hmovie.symm⟩

theorem delete_movies_subset (mid : Int) (uid : Int) (st : St) :
    ∀ m' ∈ (delete_movie mid uid st).2.db.movies, m' ∈ st.db.movies := by
  intro m' hm'
  simp only [delete_movie] at hm'
  rcases hfind : dbGet st.db mid with _ | movie
  · simp only [hfind] at hm'; exact hm'
  · simp only [hfind] at hm'
    rcases huser : userGet st uid with _ | user
    · simp only [huser] at hm'; exact hm'
    · simp only [huser] at hm'
      by_cases hperm : (!user.is_admin && !(movie.user_id == Val.vInt uid)) = true
      · rw [if_pos hperm] at hm'; exact hm'
      · rw [if_neg hperm] at hm'
        exact mem_removeFirst hm'

theorem step_user_id_mem (o : Op) (st : St) (ho : updNoUserId o = true) :
    ∀ m' ∈ (step o st).db.movies,
      m'.user_id ∈ st.db.movies.map (fun m => m.user_id) ∨
      ∃ hex wfl data poster u, o = Op.create hex wfl data poster u ∧
        m'.user_id = Val.vInt u := by
  intro m' hm'
  cases o with
  | create hex wfl data poster u =>
      rcases create_movies_characterization hex wfl data poster u st with h | ⟨mNew, h, hu⟩
      · rw [show step (Op.create hex wfl data poster u) st =
              (create_movie hex wfl data poster u st).2 from rfl, h] at hm'
        left; exact List.mem_map_of_mem _ hm'
      · rw [show step (Op.create hex wfl data poster u) st =
              (create_movie hex wfl data poster u st).2 from rfl, h] at hm'
        rcases List.mem_append.mp hm' with h2 | h2
        · left; exact List.mem_map_of_mem _ h2
        · right
          refine ⟨hex, wfl, data, poster, u, rfl, ?_⟩
          rw [List.mem_singleton.mp h2, hu]
  | update hex wfl mid data poster u =>
      left
      refine update_movies_user_ids hex wfl mid data poster u st ?_ m' hm'
      intro d hd
      subst hd
      simpa [updNoUserId] using ho
  | delete mid u =>
      left
      exact List.mem_map_of_mem _ (delete_movies_subset mid u st m' hm')
  | getOne mid =>
      left
      rw [show step (Op.getOne mid) st = (get_movie mid st).2 from rfl,
        get_movie_state] at hm'
      exact List.mem_map_of_mem _ hm'
  | listAll =>
      left; exact List.mem_map_of_mem _ hm'
  | download mid =>
      left
      rw [show step (Op.download mid) st = (download_poster mid st).2 from rfl,
        download_poster_state] at hm'
      exact List.mem_map_of_mem _ hm'

/-- C4 (amended): the owning-user identifier is set once at creation and is
unchanged by every later operation except an authorized update whose blob
explicitly contains a `user_id` key.  Formally: after any sequence of
requests whose update blobs never carry a `user_id` key, every movie in the
store carries either an owning-user identifier already present before the
sequence or the authenticated caller identifier of one of the create
requests in the sequence. -/
theorem run_user_id_mem (ops : List Op) (st : St)
    (h : ∀ o ∈ ops, updNoUserId o = true) :
    ∀ m' ∈ (run ops st).db.movies,
      m'.user_id ∈ st.db.movies.map (fun m => m.user_id) ∨
      ∃ o ∈ ops, ∃ hex wfl data poster u, o = Op.create hex wfl data poster u ∧
        m'.user_id = Val.vInt u := by
  induction ops generalizing st with
  | nil =>
      intro m' hm'
      left; exact List.mem_map_of_mem _ hm'
  | cons o rest ih =>
      intro m' hm'
      rcases ih (step o st) (fun o' ho' => h o' (List.mem_cons_of_mem _ ho')) m' hm' with
        hin | ⟨o', ho', hrest⟩
      · rcases List.mem_map.mp hin with ⟨m'', hm'', he⟩
        rcases step_user_id_mem o st (h o (List.mem_cons_self _ _)) m'' hm'' with
          h1 | ⟨hex, wfl, data, poster, u, heq, hu⟩
        · left; rw [← he]; exact h1
        · right
          exact ⟨o, List.mem_cons_self _ _, hex, wfl, data, poster, u, heq, he ▸ hu⟩
      · right
        exact ⟨o', List.mem_cons_of_mem _ ho', hrest⟩

theorem dbInsert_fst_poster_path (db : DB) (m : Movie) :
    (dbInsert db m).1.poster_path = m.poster_path := by
  unfold dbInsert; split <;> rfl

theorem dbInsert_fst_mem (db : DB) (m : Movie) :
    (dbInsert db m).1 ∈ (dbInsert db m).2.movies := by
  rw [dbInsert_snd_movies]
  exact List.mem_append_right _ (List.mem_singleton_self _)

theorem create_success_form (hex : String) (d : List (String × Val)) (poster : Upload)
    (uid : Int) (st : St) (hno : (d.any fun kv => kv.1 == "user_id") = false) :
    create_movie hex false (Jsn.obj d) poster uid st =
      (Except.ok (dbInsert st.db { movieMk d uid with
         poster_path := Val.vStr (hex ++ "." ++ extOf poster.filename) }).1,
       { st with
         db := (dbInsert st.db { movieMk d uid with
           poster_path := Val.vStr (hex ++ "." ++ extOf poster.filename) }).2,
         fs := st.fs ++ [(hex ++ "." ++ extOf poster.filename, poster.content)] }) := by
  simp only [create_movie]
  rw [if_neg (fun hc => by simp [hno] at hc)]
  rfl

/-- C1: for every successful create-movie request, the owning-user identifier
of the returned and persisted Movie record equals the authenticated caller
and is never a client-supplied value (the construction sets it from the
authenticated caller; a client-supplied `user_id` key cannot reach a
successful outcome, since the duplicated keyword argument raises). -/
theorem create_owner_is_caller (hex : String) (wfl : Bool) (data : Jsn)
    (poster : Upload) (uid : Int) (st : St) (m' : Movie) (st' : St)
    (h : create_movie hex wfl data poster uid st = (Except.ok m', st')) :
    m'.user_id = Val.vInt uid ∧ m' ∈ st'.db.movies := by
  cases data with
  | malformed => simp [create_movie] at h
  | obj d =>
      simp only [create_movie] at h
      split at h
      · simp at h
      · split at h
        · simp at h
        · simp only [Prod.mk.injEq, Except.ok.injEq] at h
          obtain ⟨h1, h2⟩ := h
          subst h1
          subst h2
          refine ⟨?_, dbInsert_fst_mem _ _⟩
          rw [dbInsert_fst_user_id]
          rfl

/-- Witness for C1: a concrete successful creation by caller 1. -/
theorem create_owner_is_caller_witness :
    m1.user_id = Val.vInt 1 ∧ m1 ∈ st1.db.movies :=
  create_owner_is_caller "aaaa" false dX posterA 1 st0 m1 st1 (by decide)

/-- C2: the poster file is written before the Movie record is inserted: when
the file write fails the request errors and the Record Store is unchanged;
when the request succeeds the written file is present in the Blob Store and
the inserted record is present and points at it. -/
theorem create_write_fail_atomic (hex : String) (data : Jsn) (poster : Upload)
    (uid : Int) (st : St) :
    ((create_movie hex true data poster uid st).2.db = st.db ∧
     ∃ e, (create_movie hex true data poster uid st).1 = Except.error e) ∧
    (∀ m' st', create_movie hex false data poster uid st = (Except.ok m', st') →
      (hex ++ "." ++ extOf poster.filename, poster.content) ∈ st'.fs ∧
      m'.poster_path = Val.vStr (hex ++ "." ++ extOf poster.filename) ∧
      m' ∈ st'.db.movies) := by
  constructor
  · cases data with
    | malformed => exact ⟨rfl, _, rfl⟩
    | obj d =>
        simp only [create_movie]
        split
        · exact ⟨rfl, _, rfl⟩
        · exact ⟨rfl, _, rfl⟩
  · intro m' st' h
    cases data with
    | malformed =>
        simp only [create_movie, Prod.mk.injEq] at h
        exact Except.noConfusion h.1
    | obj d =>
        cases hno : (d.any fun kv => kv.1 == "user_id") with
        | true =>
          simp only [create_movie] at h
          rw [if_pos hno] at h
          simp only [Prod.mk.injEq] at h
          exact Except.noConfusion h.1
        | false =>
          rw [create_success_form hex d poster uid st hno] at h
          simp only [Prod.mk.injEq, Except.ok.injEq] at h
          obtain ⟨h1, h2⟩ := h
          subst h1
          subst h2
          refine ⟨List.mem_append_right _ (List.mem_singleton_self _), ?_,
            dbInsert_fst_mem _ _⟩
          rw [dbInsert_fst_poster_path]

/-- Witness for C2: the failure and success sides at concrete inputs. -/
theorem create_write_fail_atomic_witness :
    (create_movie "aaaa" true dX posterA 1 st0).2.db = st0.db ∧
    ("aaaa" ++ "." ++ extOf posterA.filename, posterA.content) ∈ st1.fs ∧
    m1 ∈ st1.db.movies :=
  ⟨(create_write_fail_atomic "aaaa" dX posterA 1 st0).1.1,
   ((create_write_fail_atomic "aaaa" dX posterA 1 st0).2 m1 st1 (by decide)).1,
   ((create_write_fail_atomic "aaaa" dX posterA 1 st0).2 m1 st1 (by decide)).2.2⟩

/-- C3 counterexample: a create-movie request whose blob fails to parse as
JSON does not fail with BadRequest (HTTP 400); the `json.loads` exception
propagates uncaught (a server error).  No record or file is persisted. -/
theorem create_malformed_counterexample :
    (create_movie "aaaa" false Jsn.malformed posterA 1 st0).1 =
      Except.error (MErr.uncaught "JSONDecodeError") ∧
    errIsHttp400 (create_movie "aaaa" false Jsn.malformed posterA 1 st0).1 = false ∧
    (create_movie "aaaa" false Jsn.malformed posterA 1 st0).2 = st0 :=
  ⟨rfl, rfl, rfl⟩

/-- C3 (amended): a create-movie request whose blob fails to parse as JSON
fails with the uncaught `json.loads` exception — surfaced as a server error,
not BadRequest — and no record or file is persisted (the state is returned
unchanged). -/
theorem create_malformed_uncaught (hex : String) (wfl : Bool) (poster : Upload)
    (uid : Int) (st : St) :
    create_movie hex wfl Jsn.malformed poster uid st =
      (Except.error (MErr.uncaught "JSONDecodeError"), st) := rfl

/-- C10: update-movie parses the structured-data blob before the NotFound,
Unauthorized and Forbidden checks, so a malformed blob raises the parse
failure first — whatever the state, the target identifier or the caller —
and no NotFound/Unauthorized/Forbidden result is produced. -/
theorem update_malformed_parse_first (hex : String) (wfl : Bool) (mid : Int)
    (poster : Option Upload) (uid : Int) (st : St) :
    update_movie hex wfl mid Jsn.malformed poster uid st =
      (Except.error (MErr.uncaught "JSONDecodeError"), st) := rfl

/-- C4 counterexample: the owner is not immutable after creation — an update
whose blob contains a `user_id` key overwrites the owning-user identifier
(the movie created by caller 1 ends up owned by 2 after an update by its
owner with blob `{"user_id": 2}`). -/
theorem update_changes_owner_counterexample :
    (st1.db.movies.map fun m => m.user_id) = [Val.vInt 1] ∧
    ((update_movie "cccc" false 1 (Jsn.obj [("user_id", Val.vInt 2)]) none 1 st1).2.db.movies.map
      fun m => m.user_id) = [Val.vInt 2] := by
  constructor <;> decide

/-- Witness for C4 (amended): a concrete title-only update on the concrete
store, with both hypotheses discharged. -/
theorem run_user_id_mem_witness :
    m1Y.user_id ∈ st1.db.movies.map (fun m => m.user_id) ∨
    ∃ o ∈ [opUpdY], ∃ hex wfl data poster u, o = Op.create hex wfl data poster u ∧
      m1Y.user_id = Val.vInt u :=
  run_user_id_mem [opUpdY] st1
    (by intro o ho; rw [List.mem_singleton] at ho; subst ho; decide)
    m1Y (by decide)

theorem setattrM_getattr_same (m : Movie) (k : String) (v : Val)
    (hk : isField k = true) : getattrM (setattrM m k v) k = some v := by
  simp only [isField, Bool.or_eq_true, beq_iff_eq] at hk
  rcases hk with ((rfl | rfl) | rfl) | rfl <;> rfl

theorem setattrM_getattr_other (m : Movie) (k k2 : String) (v : Val)
    (h : (k2 == k) = false) : getattrM (setattrM m k v) k2 = getattrM m k2 := by
  have hne : k2 ≠ k := by simpa using h
  unfold setattrM getattrM
  split_ifs <;> simp_all

theorem getattrM_not_field (m : Movie) (k : String) (h : isField k = false) :
    getattrM m k = none := by
  simp only [isField, Bool.or_eq_false_iff] at h
  unfold getattrM
  split_ifs <;> simp_all

theorem getattrM_set_poster_other (m : Movie) (k : String) (x : Val)
    (h : (k == "poster_path") = false) :
    getattrM { m with poster_path := x } k = getattrM m k := by
  have hne : k ≠ "poster_path" := by simpa using h
  unfold getattrM
  split_ifs <;> simp_all

theorem setattrLoop_getattr (d : List (String × Val)) (m : Movie) (k : String)
    (hk : isField k = true) :
    getattrM (setattrLoop m d) k =
      match lookupLast d k with
      | some v => some v
      | none => getattrM m k := by
  induction d generalizing m with
  | nil => rfl
  | cons kv rest ih =>
      obtain ⟨k0, v0⟩ := kv
      show getattrM (setattrLoop (setattrM m k0 v0) rest) k = _
      rw [ih (setattrM m k0 v0)]
      simp only [lookupLast]
      rcases h : lookupLast rest k with _ | v
      · cases h0 : (k0 == k) with
        | true =>
            rw [beq_iff_eq] at h0
            subst h0
            exact setattrM_getattr_same m k0 v0 hk
        | false =>
            refine setattrM_getattr_other m k0 k v0 ?_
            simp only [beq_eq_false_iff_ne] at h0 ⊢
            exact fun hh => h0 hh.symm
      · rfl

theorem setattrM_not_field (m : Movie) (k : String) (v : Val)
    (h : isField k = false) : setattrM m k v = m := by
  simp only [isField, Bool.or_eq_false_iff] at h
  unfold setattrM
  split_ifs <;> simp_all

theorem setattrLoop_filter (d : List (String × Val)) (m : Movie) :
    setattrLoop m d = setattrLoop m (d.filter fun kv => isField kv.1) := by
  induction d generalizing m with
  | nil => rfl
  | cons kv rest ih =>
      obtain ⟨k, v⟩ := kv
      show setattrLoop (setattrM m k v) rest = _
      cases hf : isField k with
      | true =>
          have hcons : List.filter (fun kv => isField kv.1) ((k, v) :: rest) =
              (k, v) :: List.filter (fun kv => isField kv.1) rest := by
            simp [List.filter_cons, hf]
          rw [hcons]
          exact ih (setattrM m k v)
      | false =>
          have hcons : List.filter (fun kv => isField kv.1) ((k, v) :: rest) =
              List.filter (fun kv => isField kv.1) rest := by
            simp [List.filter_cons, hf]
          rw [hcons]
          rw [setattrM_not_field m k v hf]
          exact ih m

/-- C5 counterexample: when a replacement poster is supplied together with a
blob key `poster_path`, that attribute is not left at the blob-supplied
value — the freshly generated filename overwrites it afterwards. -/
theorem update_posterpath_counterexample :
    (update_movie "dddd" false 1 (Jsn.obj [("poster_path", Val.vStr "hijack.png")])
        (some posterA) 1 st1).1 =
      Except.ok { id := Val.vInt 1, title := Val.vStr "X",
                  poster_path := Val.vStr "dddd.jpg", user_id := Val.vInt 1 } ∧
    ((Val.vStr "dddd.jpg" : Val) == Val.vStr "hijack.png") = false := by
  constructor <;> decide

/-- C5 (amended): for every authorized update-movie request whose poster
write, if a replacement poster is supplied, succeeds, each key in the blob
naming an existing Movie attribute has that attribute overwritten with the
supplied value — except that a supplied replacement poster finally sets
`poster_path` to the newly generated filename, overriding any blob-supplied
value — each key not naming an attribute is silently ignored, and the
updated record is persisted and returned. -/
theorem update_merge_semantics (hex : String) (wfl : Bool) (mid : Int)
    (d : List (String × Val)) (poster : Option Upload) (uid : Int) (st : St)
    (movie : Movie) (user : User)
    (hm : dbGet st.db mid = some movie)
    (hu : userGet st uid = some user)
    (hauth : user.is_admin = true ∨ movie.user_id = Val.vInt uid)
    (hwf : poster = none ∨ wfl = false) :
    ∃ m', (update_movie hex wfl mid (Jsn.obj d) poster uid st).1 = Except.ok m' ∧
      m' ∈ (update_movie hex wfl mid (Jsn.obj d) poster uid st).2.db.movies ∧
      m' = (match poster with
            | none => setattrLoop movie d
            | some p => { setattrLoop movie d with
                poster_path := Val.vStr (hex ++ "." ++ extOf p.filename) }) ∧
      setattrLoop movie d = setattrLoop movie (d.filter fun kv => isField kv.1) ∧
      (∀ k v, isField k = true → (poster = none ∨ (k == "poster_path") = false) →
        lookupLast d k = some v → getattrM m' k = some v) ∧
      (∀ k, (poster = none ∨ (k == "poster_path") = false) →
        lookupLast d k = none → getattrM m' k = getattrM movie k) := by
  have hcond : (!user.is_admin && !(movie.user_id == Val.vInt uid)) = false := by
    rcases hauth with h | h
    · simp [h]
    · simp [h]
  have hmf : st.db.movies.find? (fun m => m.id == Val.vInt mid) = some movie := hm
  have hpm : (movie.id == Val.vInt mid) = true := by
    have h3 := List.find?_some hmf
    exact h3
  have hex1 : ∃ x ∈ st.db.movies, (x.id == Val.vInt mid) = true :=
    ⟨movie, List.mem_of_find?_eq_some hmf, hpm⟩
  cases poster with
  | none =>
      have hres : update_movie hex wfl mid (Jsn.obj d) none uid st =
          (Except.ok (setattrLoop movie d),
           { st with db := { st.db with
               movies := replaceFirst st.db.movies mid (setattrLoop movie d) } }) := by
        simp only [update_movie, hm, hu]
        rw [if_neg (by simp [hcond])]
      refine ⟨setattrLoop movie d, ?_, ?_, rfl, setattrLoop_filter d movie, ?_, ?_⟩
      · rw [hres]
      · rw [hres]
        exact self_mem_replaceFirst hex1
      · intro k v hk _ hl
        rw [setattrLoop_getattr d movie k hk, hl]
      · intro k _ hl
        by_cases hk : isField k = true
        · rw [setattrLoop_getattr d movie k hk, hl]
        · rw [getattrM_not_field _ k (by simpa using hk),
            getattrM_not_field movie k (by simpa using hk)]
  | some p =>
      have hwfl : wfl = false := by
        rcases hwf with h | h
        · exact absurd h (by simp)
        · exact h
      subst hwfl
      have hres : update_movie hex false mid (Jsn.obj d) (some p) uid st =
          (Except.ok { setattrLoop movie d with
              poster_path := Val.vStr (hex ++ "." ++ extOf p.filename) },
           { st with
             db := { st.db with
                 movies := replaceFirst st.db.movies mid
                   { setattrLoop movie d with
                     poster_path := Val.vStr (hex ++ "." ++ extOf p.filename) } },
             fs := st.fs ++ [(hex ++ "." ++ extOf p.filename, p.content)] }) := by
        simp only [update_movie, hm, hu]
        rw [if_neg (by simp [hcond])]
        rfl
      refine ⟨_, ?_, ?_, rfl, setattrLoop_filter d movie, ?_, ?_⟩
      · rw [hres]
      · rw [hres]
        exact self_mem_replaceFirst hex1
      · intro k v hk hp hl
        have hkp : (k == "poster_path") = false := by
          rcases hp with h | h
          · exact absurd h (by simp)
          · exact h
        rw [getattrM_set_poster_other _ k _ hkp, setattrLoop_getattr d movie k hk, hl]
      · intro k hp hl
        have hkp : (k == "poster_path") = false := by
          rcases hp with h | h
          · exact absurd h (by simp)
          · exact h
        rw [getattrM_set_poster_other _ k _ hkp]
        by_cases hk : isField k = true
        · rw [setattrLoop_getattr d movie k hk, hl]
        · rw [getattrM_not_field _ k (by simpa using hk),
            getattrM_not_field movie k (by simpa using hk)]

/-- Witness for C5 (amended): a concrete authorized title-only update,
with all four hypotheses discharged. -/
theorem update_merge_semantics_witness :
    (update_movie "bbbb" false 1 (Jsn.obj [("title", Val.vStr "Y")]) none 1 st1).1 =
      Except.ok m1Y := by
  obtain ⟨m', h1, h2, h3, h4, h5, h6⟩ :=
    update_merge_semantics "bbbb" false 1 [("title", Val.vStr "Y")] none 1 st1 m1 user1
      (by decide) (by decide) (Or.inr rfl) (Or.inl rfl)
  rw [h1, h3]
  decide

/-- C6: an update-movie request whose well-formed blob targets an existing
Movie, by an authenticated caller who resolves to a User that is neither an
admin nor the owner, returns Forbidden (HTTP 403) and leaves the whole state
— Record Store and Blob Store — unchanged. -/
theorem update_forbidden_unchanged (hex : String) (wfl : Bool) (mid : Int)
    (d : List (String × Val)) (poster : Option Upload) (uid : Int) (st : St)
    (movie : Movie) (user : User)
    (hm : dbGet st.db mid = some movie)
    (hu : userGet st uid = some user)
    (hadmin : user.is_admin = false)
    (howner : (movie.user_id == Val.vInt uid) = false) :
    update_movie hex wfl mid (Jsn.obj d) poster uid st =
      (Except.error (MErr.http 403 "수정 권한이 없습니다."), st) := by
  simp only [update_movie, hm, hu]
  rw [if_pos (by simp [hadmin, howner])]

/-- Witness for C6: caller 2 (no admin) updating the movie owned by 1. -/
theorem update_forbidden_unchanged_witness :
    update_movie "eeee" false 1 (Jsn.obj [("title", Val.vStr "Z")]) none 2 st1 =
      (Except.error (MErr.http 403 "수정 권한이 없습니다."), st1) :=
  update_forbidden_unchanged "eeee" false 1 [("title", Val.vStr "Z")] none 2 st1 m1 user2
    (by decide) (by decide) rfl (by decide)

/-- C7: download-poster returns NotFound (HTTP 404), not a server error,
both when no Movie matches the identifier and when the stored poster
filename (a string, as for every record the API creates) has no matching
file in the Blob Store; otherwise it returns the file response with the
generic binary content type, the stored filename as suggested download name,
and the stored bytes. -/
theorem download_poster_spec (mid : Int) (st : St) :
    (dbGet st.db mid = none →
      download_poster mid st =
        (Except.error (MErr.http 404 "해당 영화를 찾을 수 없습니다."), st)) ∧
    (∀ movie p, dbGet st.db mid = some movie → movie.poster_path = Val.vStr p →
      st.fs.find? (fun f => f.1 == p) = none →
      download_poster mid st =
        (Except.error (MErr.http 404 "포스터 파일을 찾을 수 없습니다."), st)) ∧
    (∀ movie p fl, dbGet st.db mid = some movie → movie.poster_path = Val.vStr p →
      st.fs.find? (fun f => f.1 == p) = some fl →
      download_poster mid st =
        (Except.ok { path := p, media_type := "application/octet-stream",
                     filename := pathName p, bytes := fl.2 }, st)) := by
  refine ⟨?_, ?_, ?_⟩
  · intro h
    simp [download_poster, h]
  · intro movie p hmm hp hf
    simp [download_poster, hmm, hp, hf]
  · intro movie p fl hmm hp hf
    simp [download_poster, hmm, hp, hf]

/-- Witness for C7: the NotFound branch at an absent identifier. -/
theorem download_poster_spec_witness :
    download_poster 5 st1 =
      (Except.error (MErr.http 404 "해당 영화를 찾을 수 없습니다."), st1) :=
  (download_poster_spec 5 st1).1 (by decide)

/-- C8: the stored poster filename is `hex ++ "." ++ ext` for the generated
hex and the original filename extension `ext = name.split('.')[-1]` — it
ends in the original extension, and differs from the original filename
whenever the random hex avoids the one colliding value. -/
theorem create_poster_filename (hex : String) (d : List (String × Val))
    (poster : Upload) (uid : Int) (st : St)
    (hno : (d.any fun kv => kv.1 == "user_id") = false)
    (hne : poster.filename ≠ hex ++ "." ++ extOf poster.filename) :
    ∃ m' st', create_movie hex false (Jsn.obj d) poster uid st = (Except.ok m', st') ∧
      m'.poster_path = Val.vStr (hex ++ "." ++ extOf poster.filename) ∧
      (∃ pre, hex ++ "." ++ extOf poster.filename =
        pre ++ ("." ++ extOf poster.filename)) ∧
      hex ++ "." ++ extOf poster.filename ≠ poster.filename := by
  refine ⟨_, _, create_success_form hex d poster uid st hno, ?_,
    ⟨hex, String.append_assoc hex "." (extOf poster.filename)⟩, fun h => hne h.symm⟩
  rw [dbInsert_fst_poster_path]

/-- Witness for C8: uploading `poster.png` with hex `aaaa` stores
`aaaa.png`. -/
theorem create_poster_filename_witness :
    ∃ m' st', create_movie "aaaa" false (Jsn.obj []) posterPng 1 st0 =
        (Except.ok m', st') ∧
      m'.poster_path = Val.vStr ("aaaa" ++ "." ++ extOf posterPng.filename) ∧
      (∃ pre, "aaaa" ++ "." ++ extOf posterPng.filename =
        pre ++ ("." ++ extOf posterPng.filename)) ∧
      "aaaa" ++ "." ++ extOf posterPng.filename ≠ posterPng.filename :=
  create_poster_filename "aaaa" [] posterPng 1 st0 rfl (by decide)

/-- C9: round-trip — creating a movie with blob `{"title": "X"}` and poster
`a.jpg` yields the record `m1` (title `X`, poster filename `aaaa.jpg`);
updating it as its owner with blob `{"title": "Y"}` and no poster, then
fetching it, returns title `Y` with the poster filename assigned at
creation unchanged. -/
theorem roundtrip_title_poster :
    (create_movie "aaaa" false dX posterA 1 st0).1 = Except.ok m1 ∧
    (get_movie 1 (run [Op.create "aaaa" false dX posterA 1, opUpdY] st0)).1 =
      Except.ok m1Y := by
  constructor <;> decide

end MovieService
